import Mathlib

/-!
Shallow embedding of the recursive Bayesian VAS estimator
(`src/experiments/calibration/estimator.py`, class `BayesianEstimatorVAS`)
over exact real arithmetic.

The NumPy/SciPy primitives used by the source are modelled mathematically:
`scipy.stats.norm.pdf`/`cdf` by the Gaussian density and its cumulative
integral, `np.linspace`/`np.diff`/`np.argmax`/`np.round` by the list
functions below.  Python `int()` is truncation toward zero, `np.round`
rounds half to even.  The `logger.warning` emitted by the `current_temp`
setter is modelled by a warning counter in the state.
-/

open Real MeasureTheory Set intervalIntegral

open scoped Classical

noncomputable section

/-- Python int() applied to a real value: truncation toward zero. -/
def pyInt (x : ℝ) : ℤ := if 0 ≤ x then ⌊x⌋ else ⌈x⌉

/-- NumPy rounding of a real value to the nearest integer, half to even.
On a tie (fractional part exactly 1/2) this equals 2 * round (x / 2),
which is the nearest even integer; otherwise it is ordinary rounding. -/
def roundHalfEven (x : ℝ) : ℤ :=
  if Int.fract x = 1 / 2 then 2 * round (x / 2) else round x

/-- np.round(x, 1): rounding to one decimal place. -/
def np_round1 (x : ℝ) : ℝ := (roundHalfEven (10 * x) : ℝ) / 10

/-- np.linspace(lo, hi, num): num evenly spaced points from lo to hi inclusive. -/
def linspace (lo hi : ℝ) (num : ℕ) : List ℝ :=
  (List.range num).map (fun i : ℕ => lo + (hi - lo) * (i : ℝ) / ((num : ℝ) - 1))

/-- np.diff: successive differences of a list. -/
def npDiff (l : List ℝ) : List ℝ := List.zipWith (fun a b => b - a) l l.tail

/-- np.argmax: index of the first maximal entry (0 on the empty list). -/
def argmaxIdx : List ℝ → ℕ
  | [] => 0
  | [_] => 0
  | x :: y :: t =>
    if (y :: t).getD (argmaxIdx (y :: t)) 0 > x then argmaxIdx (y :: t) + 1 else 0

/-- scipy.stats.norm.pdf(x, loc, scale): the Gaussian density. -/
def normPdf (loc scale x : ℝ) : ℝ :=
  Real.exp (-((x - loc) ^ 2) / (2 * scale ^ 2)) / (scale * Real.sqrt (2 * Real.pi))

/-- scipy.stats.norm.cdf(x, loc, scale): the Gaussian cumulative distribution
function, the integral of the density over all reals up to x. -/
def normCdf (loc scale x : ℝ) : ℝ := ∫ t in Set.Iic x, normPdf loc scale t

/-- State of the estimator.  Field names follow the Python attributes; the
private _current_temp behind the current_temp property is one field here,
and maxTempWarnings counts the warnings logged by the property setter. -/
structure BayesianEstimatorVAS where
  vas_value : ℤ
  trials : ℤ
  temp_start : ℝ
  temp_std : ℝ
  likelihood_std : ℝ
  reduction_factor : ℝ
  min_temp : ℝ
  max_temp : ℝ
  range_temp : List ℝ
  prior : List ℝ
  current_temp : ℝ
  temps : List ℝ
  priors : List (List ℝ)
  likelihoods : List (List ℝ)
  posteriors : List (List ℝ)
  maxTempWarnings : ℕ

namespace BayesianEstimatorVAS

/-- Class attribute MAX_TEMP = 48.0. -/
def MAX_TEMP : ℝ := 48.0

/-- The range-width lookup at the top of __init__, keyed on int(temp_std);
none models the raised ValueError. -/
def rangeWidth? (temp_std : ℝ) : Option ℝ :=
  if pyInt temp_std = 0 then some 1.0
  else if pyInt temp_std = 1 then some 2.0
  else if pyInt temp_std = 2 then some 3.0
  else if pyInt temp_std = 3 then some 4.0
  else none

/-- The constructor __init__.  In the source, likelihood_std defaults to 1 and
reduction_factor to 0.9; callers here always pass them explicitly.  The
ValueError raised for an out-of-range int(temp_std) is the error case, and a
raised error leaves no usable object behind. -/
def init (vas_value trials : ℤ) (temp_start temp_std likelihood_std reduction_factor : ℝ) :
    Except String BayesianEstimatorVAS :=
  match rangeWidth? temp_std with
  | none => .error "int(temp_std) must be 0, 1, 2, or 3 (or add more cases for other ranges)."
  | some range_width =>
    let min_temp := temp_start - range_width
    let max_temp := temp_start + range_width
    let num := (pyInt ((max_temp - min_temp) / 0.1) + 1).toNat
    let range_temp := linspace min_temp max_temp num
    let prior0 := range_temp.map (normPdf temp_start temp_std)
    .ok { vas_value := vas_value
          trials := trials
          temp_start := temp_start
          temp_std := temp_std
          likelihood_std := likelihood_std
          reduction_factor := reduction_factor
          min_temp := min_temp
          max_temp := max_temp
          range_temp := range_temp
          prior := prior0.map (fun p => p / prior0.sum)
          current_temp := temp_start
          temps := [temp_start]
          priors := []
          likelihoods := []
          posteriors := []
          maxTempWarnings := 0 }

/-- The current_temp property setter: it stores the assigned value unchanged
and logs a warning (counted here) when the value is at least MAX_TEMP.
It never clamps the value. -/
def set_current_temp (e : BayesianEstimatorVAS) (value : ℝ) : BayesianEstimatorVAS :=
  { e with current_temp := value
           maxTempWarnings := e.maxTempWarnings + if MAX_TEMP ≤ value then 1 else 0 }

/-- The likelihood array built in conduct_trial.  The source compares the
response string with "y" (the painful response of the interface); "y" gives
1 - cdf over the grid, any other response (i.e. "n", not painful) gives cdf,
both centered at the current temperature with scale likelihood_std. -/
def likelihood (e : BayesianEstimatorVAS) (response : String) : List ℝ :=
  if response = "y" then
    e.range_temp.map (fun t => 1 - normCdf e.current_temp e.likelihood_std t)
  else
    e.range_temp.map (fun t => normCdf e.current_temp e.likelihood_std t)

/-- The posterior computed in conduct_trial: the elementwise product of the
likelihood with the prior, divided by its sum. -/
def posterior (e : BayesianEstimatorVAS) (response : String) : List ℝ :=
  let p := List.zipWith (· * ·) (likelihood e response) e.prior
  p.map (fun x => x / p.sum)

/-- conduct_trial(response, trial).  The trial argument only appears in log
messages in the source (including the last-trial block, which merely logs
get_estimate, steps and validate_steps), so it does not occur in the state
update.  likelihood_std is decayed after the likelihood is built, the new
current temperature goes through the warning setter, the distributions are
appended to the diagnostic lists, and the posterior becomes the next prior. -/
def conduct_trial (e : BayesianEstimatorVAS) (response : String) (trial : ℤ) :
    BayesianEstimatorVAS :=
  let lik := likelihood e response
  let post := posterior e response
  let e1 := { e with likelihood_std := e.likelihood_std * e.reduction_factor }
  let e2 := set_current_temp e1 (np_round1 (e.range_temp.getD (argmaxIdx post) 0))
  { e2 with priors := e.priors ++ [e.prior]
            likelihoods := e.likelihoods ++ [lik]
            posteriors := e.posteriors ++ [post]
            temps := e.temps ++ [e2.current_temp]
            prior := post }

/-- The steps property: np.diff(self.temps). -/
def steps (e : BayesianEstimatorVAS) : List ℝ := npDiff e.temps

/-- validate_steps: the boolean negation of
(all steps nonnegative or all steps nonpositive). -/
def validate_steps (e : BayesianEstimatorVAS) : Bool :=
  if (∀ x ∈ steps e, 0 ≤ x) ∨ (∀ x ∈ steps e, x ≤ 0) then false else true

/-- get_estimate: the last entry of temps. -/
def get_estimate (e : BayesianEstimatorVAS) : ℝ := e.temps.getD (e.temps.length - 1) 0

/-- Folds conduct_trial over a list of (response, trial index) pairs; a
convenience for stating multi-trial runs. -/
def runTrials : BayesianEstimatorVAS → List (String × ℤ) → BayesianEstimatorVAS
  | e, [] => e
  | e, (r, i) :: rest => runTrials (conduct_trial e r i) rest

end BayesianEstimatorVAS

/-- The temperature grid of the concrete scenario: np.linspace(36, 44, 81). -/
def scenarioGrid : List ℝ := linspace 36 44 81

/-- The state constructed by BayesianEstimatorVAS(vas_value=50, trials=3,
temp_start=40.0, temp_std=3.0, likelihood_std=1.0, reduction_factor=0.9). -/
def e0 : BayesianEstimatorVAS :=
  { vas_value := 50
    trials := 3
    temp_start := 40
    temp_std := 3
    likelihood_std := 1
    reduction_factor := 0.9
    min_temp := 36
    max_temp := 44
    range_temp := scenarioGrid
    prior := (scenarioGrid.map (normPdf 40 3)).map
      (fun p => p / (scenarioGrid.map (normPdf 40 3)).sum)
    current_temp := 40
    temps := [40]
    priors := []
    likelihoods := []
    posteriors := []
    maxTempWarnings := 0 }

/-- The scenario state after five all-painful trials. -/
def eAllPainful : BayesianEstimatorVAS :=
  BayesianEstimatorVAS.runTrials e0 [("y", 0), ("y", 1), ("y", 2), ("y", 3), ("y", 4)]

/-- A degenerate handcrafted state whose prior is identically zero, so the
elementwise product of likelihood and prior sums to exactly zero. -/
def eDegenerate : BayesianEstimatorVAS :=
  { vas_value := 50
    trials := 3
    temp_start := 40
    temp_std := 3
    likelihood_std := 1
    reduction_factor := 0.9
    min_temp := 36
    max_temp := 44
    range_temp := [36, 37]
    prior := [0, 0]
    current_temp := 40
    temps := [40, 40]
    priors := []
    likelihoods := []
    posteriors := []
    maxTempWarnings := 0 }

/-- Well-formedness of an estimator state: prior matches the grid in length,
the grid is nonempty, the prior is a strictly positive mass function summing
to 1, the likelihood scale and decay factor are positive, and every stored
posterior sums to 1. -/
def WFState (e : BayesianEstimatorVAS) : Prop :=
  e.prior.length = e.range_temp.length ∧ e.range_temp ≠ [] ∧
  (∀ x ∈ e.prior, 0 < x) ∧ e.prior.sum = 1 ∧
  0 < e.likelihood_std ∧ 0 < e.reduction_factor ∧
  ∀ p ∈ e.posteriors, p.sum = 1

/-- Invariant for the all-painful run of the concrete scenario: the state
lives on the scenario grid, has a strictly positive prior of matching length,
positive likelihood scale and decay factor, its temperature history is
non-increasing, and every recorded temperature is at least the temperature
the current prior would select. -/
def DescendingInv (e : BayesianEstimatorVAS) : Prop :=
  e.range_temp = scenarioGrid ∧ e.prior.length = 81 ∧
  (∀ x ∈ e.prior, 0 < x) ∧ 0 < e.likelihood_std ∧ 0 < e.reduction_factor ∧
  List.Pairwise (· ≥ ·) e.temps ∧
  (∀ x ∈ e.temps, np_round1 (scenarioGrid.getD (argmaxIdx e.prior) 0) ≤ x) ∧
  ∀ x ∈ e.temps, 36 ≤ x

/-! ## List-level helper lemmas -/

theorem getD_map_of_lt (f : ℝ → ℝ) (l : List ℝ) (i : ℕ) (h : i < l.length) :
    (l.map f).getD i 0 = f (l.getD i 0) := by
  rw [List.getD_eq_getElem?_getD, List.getD_eq_getElem?_getD, List.getElem?_map,
    List.getElem?_eq_getElem h]
  rfl

theorem getD_zipWith_mul (a b : List ℝ) (i : ℕ) (ha : i < a.length) (hb : i < b.length) :
    (List.zipWith (· * ·) a b).getD i 0 = a.getD i 0 * b.getD i 0 := by
  have hlen : i < (List.zipWith (· * ·) a b).length := by
    simpa [List.length_zipWith] using And.intro ha hb
  rw [List.getD_eq_getElem?_getD, List.getElem?_eq_getElem hlen,
    List.getD_eq_getElem?_getD, List.getElem?_eq_getElem ha,
    List.getD_eq_getElem?_getD, List.getElem?_eq_getElem hb]
  simp [List.getElem_zipWith]

theorem sum_map_div (l : List ℝ) (c : ℝ) : (l.map (fun x => x / c)).sum = l.sum / c := by
  induction l with
  | nil => simp
  | cons x xs ih => simp [ih, add_div]

theorem mem_map_div_pos {l : List ℝ} {c : ℝ} (hc : 0 < c) (hl : ∀ x ∈ l, 0 < x) :
    ∀ y ∈ l.map (fun x => x / c), 0 < y := by
  intro y hy
  rcases List.mem_map.1 hy with ⟨x, hx, rfl⟩
  exact div_pos (hl x hx) hc

/-! ## Properties of argmaxIdx (np.argmax) -/

theorem argmaxIdx_cons_cons (x y : ℝ) (t : List ℝ) :
    argmaxIdx (x :: y :: t) =
      if (y :: t).getD (argmaxIdx (y :: t)) 0 > x then argmaxIdx (y :: t) + 1 else 0 := rfl

theorem argmaxIdx_lt_length : ∀ (l : List ℝ), l ≠ [] → argmaxIdx l < l.length := by
  intro l
  induction l with
  | nil => intro h; exact absurd rfl h
  | cons x xs ih =>
    intro _
    cases xs with
    | nil => simp [argmaxIdx]
    | cons y t =>
      rw [argmaxIdx_cons_cons]
      by_cases hcase : (y :: t).getD (argmaxIdx (y :: t)) 0 > x
      · rw [if_pos hcase]
        have := ih (List.cons_ne_nil y t)
        simpa [Nat.succ_lt_succ_iff] using this
      · rw [if_neg hcase]
        simp

theorem argmaxIdx_isMax :
    ∀ (l : List ℝ) (i : ℕ), i < l.length → l.getD i 0 ≤ l.getD (argmaxIdx l) 0 := by
  intro l
  induction l with
  | nil => intro i h; simp at h
  | cons x xs ih =>
    cases xs with
    | nil =>
      intro i h
      have : i = 0 := by simpa using Nat.lt_one_iff.1 (by simpa using h)
      subst this
      simp [argmaxIdx]
    | cons y t =>
      intro i h
      rw [argmaxIdx_cons_cons]
      by_cases hcase : (y :: t).getD (argmaxIdx (y :: t)) 0 > x
      · rw [if_pos hcase]
        cases i with
        | zero => simpa using le_of_lt hcase
        | succ j =>
          simp only [List.getD_cons_succ]
          exact ih j (by simpa using h)
      · rw [if_neg hcase]
        push_neg at hcase
        cases i with
        | zero => simp
        | succ j =>
          simp only [List.getD_cons_succ, List.getD_cons_zero]
          exact (ih j (by simpa using h)).trans hcase

theorem argmaxIdx_le_of_lt_beyond (l : List ℝ) (k : ℕ) (hk : k < l.length)
    (h : ∀ j, k < j → j < l.length → l.getD j 0 < l.getD k 0) : argmaxIdx l ≤ k := by
  by_contra hlt
  push_neg at hlt
  have hne : l ≠ [] := by
    intro he
    rw [he] at hk
    simp at hk
  have h1 := argmaxIdx_lt_length l hne
  have h2 := h (argmaxIdx l) hlt h1
  have h3 := argmaxIdx_isMax l k hk
  linarith

/-! ## np.round on exact tenths, and the scenario grid -/

theorem np_round1_int_div_ten (k : ℤ) : np_round1 ((k : ℝ) / 10) = (k : ℝ) / 10 := by
  have h10 : (10 : ℝ) * ((k : ℝ) / 10) = (k : ℝ) := by ring
  unfold np_round1 roundHalfEven
  rw [h10, Int.fract_intCast]
  norm_num

theorem linspace_length (lo hi : ℝ) (num : ℕ) : (linspace lo hi num).length = num := by
  simp [linspace]

theorem linspace_getD (lo hi : ℝ) (num : ℕ) (i : ℕ) (h : i < num) :
    (linspace lo hi num).getD i 0 = lo + (hi - lo) * i / ((num : ℝ) - 1) := by
  rw [linspace, List.getD_eq_getElem?_getD, List.getElem?_map, List.getElem?_range h]
  rfl

theorem scenarioGrid_length : scenarioGrid.length = 81 := linspace_length 36 44 81

theorem scenarioGrid_getD (i : ℕ) (h : i < 81) :
    scenarioGrid.getD i 0 = 36 + (i : ℝ) / 10 := by
  rw [scenarioGrid, linspace_getD 36 44 81 i h]
  norm_num
  ring

theorem scenarioGrid_getD_eq_int (i : ℕ) (h : i < 81) :
    scenarioGrid.getD i 0 = ((360 + (i : ℤ) : ℤ) : ℝ) / 10 := by
  rw [scenarioGrid_getD i h]
  push_cast
  ring

theorem np_round1_scenarioGrid (i : ℕ) (h : i < 81) :
    np_round1 (scenarioGrid.getD i 0) = scenarioGrid.getD i 0 := by
  rw [scenarioGrid_getD_eq_int i h, np_round1_int_div_ten]

theorem scenarioGrid_mono (i j : ℕ) (hij : i ≤ j) (hj : j < 81) :
    scenarioGrid.getD i 0 ≤ scenarioGrid.getD j 0 := by
  rw [scenarioGrid_getD i (lt_of_le_of_lt hij hj), scenarioGrid_getD j hj]
  have : (i : ℝ) ≤ (j : ℝ) := by exact_mod_cast hij
  linarith

theorem scenarioGrid_strictMono (i j : ℕ) (hij : i < j) (hj : j < 81) :
    scenarioGrid.getD i 0 < scenarioGrid.getD j 0 := by
  rw [scenarioGrid_getD i (lt_trans hij hj), scenarioGrid_getD j hj]
  have : (i : ℝ) < (j : ℝ) := by exact_mod_cast hij
  linarith

/-! ## Analytic properties of the Gaussian density and its cdf -/

theorem sqrt_two_pi_pos : 0 < Real.sqrt (2 * Real.pi) :=
  Real.sqrt_pos.2 (by positivity)

theorem normPdf_pos (loc scale x : ℝ) (hs : 0 < scale) : 0 < normPdf loc scale x := by
  unfold normPdf
  have h1 := sqrt_two_pi_pos
  positivity

theorem normPdf_le_of_sq_le (loc scale x y : ℝ) (hs : 0 < scale)
    (h : (y - loc) ^ 2 ≤ (x - loc) ^ 2) : normPdf loc scale x ≤ normPdf loc scale y := by
  unfold normPdf
  have hden : 0 < scale * Real.sqrt (2 * Real.pi) := mul_pos hs sqrt_two_pi_pos
  have h2 : (0 : ℝ) < 2 * scale ^ 2 := by positivity
  have hexp : Real.exp (-((x - loc) ^ 2) / (2 * scale ^ 2)) ≤
      Real.exp (-((y - loc) ^ 2) / (2 * scale ^ 2)) := by
    apply Real.exp_le_exp.2
    apply (div_le_div_right h2).2
    linarith
  exact (div_le_div_right hden).2 hexp

theorem normPdf_le_peak (loc scale x : ℝ) (hs : 0 < scale) :
    normPdf loc scale x ≤ normPdf loc scale loc :=
  normPdf_le_of_sq_le loc scale x loc hs (by nlinarith [sq_nonneg (x - loc)])

theorem normPdf_mono_left (loc scale x y : ℝ) (hs : 0 < scale) (hxy : x ≤ y) (hy : y ≤ loc) :
    normPdf loc scale x ≤ normPdf loc scale y :=
  normPdf_le_of_sq_le loc scale x y hs (by nlinarith)

theorem normPdf_anti_right (loc scale x y : ℝ) (hs : 0 < scale) (hx : loc ≤ x) (hxy : x ≤ y) :
    normPdf loc scale y ≤ normPdf loc scale x :=
  normPdf_le_of_sq_le loc scale y x hs (by nlinarith)

theorem normPdf_eq_gauss (loc scale : ℝ) :
    normPdf loc scale =
      fun x => (1 / (scale * Real.sqrt (2 * Real.pi))) *
        Real.exp (-(1 / (2 * scale ^ 2)) * (x - loc) ^ 2) := by
  funext x
  unfold normPdf
  rw [show -((x - loc) ^ 2) / (2 * scale ^ 2) = -(1 / (2 * scale ^ 2)) * (x - loc) ^ 2 from by
    ring]
  ring

theorem normPdf_integrable (loc scale : ℝ) (hs : 0 < scale) :
    MeasureTheory.Integrable (normPdf loc scale) := by
  rw [normPdf_eq_gauss]
  have hb : (0 : ℝ) < 1 / (2 * scale ^ 2) := by positivity
  exact ((integrable_exp_neg_mul_sq hb).comp_sub_right loc).const_mul _

theorem integral_normPdf (loc scale : ℝ) (hs : 0 < scale) :
    ∫ x, normPdf loc scale x = 1 := by
  rw [normPdf_eq_gauss]
  rw [MeasureTheory.integral_mul_left]
  rw [integral_sub_right_eq_self (fun x => Real.exp (-(1 / (2 * scale ^ 2)) * x ^ 2)) loc]
  rw [integral_gaussian]
  have h1 : Real.pi / (1 / (2 * scale ^ 2)) = 2 * Real.pi * scale ^ 2 := by
    field_simp
    ring
  have h2 : Real.sqrt (Real.pi / (1 / (2 * scale ^ 2))) = scale * Real.sqrt (2 * Real.pi) := by
    rw [h1, mul_comm (2 * Real.pi) (scale ^ 2), Real.sqrt_mul (by positivity) _,
      Real.sqrt_sq hs.le]
  rw [h2]
  field_simp

theorem normCdf_nonneg (loc scale x : ℝ) (hs : 0 < scale) : 0 ≤ normCdf loc scale x :=
  MeasureTheory.setIntegral_nonneg measurableSet_Iic fun t _ => (normPdf_pos loc scale t hs).le

theorem normCdf_sub_eq (loc scale a b : ℝ) (hs : 0 < scale) :
    normCdf loc scale b - normCdf loc scale a = ∫ t in a..b, normPdf loc scale t :=
  integral_Iic_sub_Iic (normPdf_integrable loc scale hs).integrableOn
    (normPdf_integrable loc scale hs).integrableOn

theorem normCdf_mono (loc scale a b : ℝ) (hs : 0 < scale) (hab : a ≤ b) :
    normCdf loc scale a ≤ normCdf loc scale b := by
  have h := normCdf_sub_eq loc scale a b hs
  have hpos : 0 ≤ ∫ t in a..b, normPdf loc scale t :=
    intervalIntegral.integral_nonneg hab fun u _ => (normPdf_pos loc scale u hs).le
  linarith

theorem normCdf_strictMono (loc scale a b : ℝ) (hs : 0 < scale) (hab : a < b) :
    normCdf loc scale a < normCdf loc scale b := by
  have h := normCdf_sub_eq loc scale a b hs
  have hpos : 0 < ∫ t in a..b, normPdf loc scale t :=
    intervalIntegral_pos_of_pos (normPdf_integrable loc scale hs).intervalIntegrable
      (fun u => normPdf_pos loc scale u hs) hab
  linarith

theorem normCdf_pos (loc scale x : ℝ) (hs : 0 < scale) : 0 < normCdf loc scale x :=
  lt_of_le_of_lt (normCdf_nonneg loc scale (x - 1) hs)
    (normCdf_strictMono loc scale (x - 1) x hs (by linarith))

theorem normCdf_add_Ioi (loc scale x : ℝ) (hs : 0 < scale) :
    normCdf loc scale x + ∫ t in Set.Ioi x, normPdf loc scale t = 1 := by
  unfold normCdf
  rw [integral_Iic_add_Ioi (normPdf_integrable loc scale hs).integrableOn
    (normPdf_integrable loc scale hs).integrableOn]
  exact integral_normPdf loc scale hs

theorem integral_Ioi_normPdf_pos (loc scale x : ℝ) (hs : 0 < scale) :
    0 < ∫ t in Set.Ioi x, normPdf loc scale t := by
  have h1 : (∫ t in Set.Ioc x (x + 1), normPdf loc scale t) ≤
      ∫ t in Set.Ioi x, normPdf loc scale t :=
    MeasureTheory.setIntegral_mono_set (normPdf_integrable loc scale hs).integrableOn
      (MeasureTheory.ae_of_all _ fun t => (normPdf_pos loc scale t hs).le)
      (HasSubset.Subset.eventuallyLE Set.Ioc_subset_Ioi_self)
  have h2 : 0 < ∫ t in Set.Ioc x (x + 1), normPdf loc scale t := by
    rw [← intervalIntegral.integral_of_le (by linarith : x ≤ x + 1)]
    exact intervalIntegral_pos_of_pos (normPdf_integrable loc scale hs).intervalIntegrable
      (fun u => normPdf_pos loc scale u hs) (by linarith)
  linarith

theorem normCdf_lt_one (loc scale x : ℝ) (hs : 0 < scale) : normCdf loc scale x < 1 := by
  have h := normCdf_add_Ioi loc scale x hs
  have h2 := integral_Ioi_normPdf_pos loc scale x hs
  linarith

theorem normCdf_le_one (loc scale x : ℝ) (hs : 0 < scale) : normCdf loc scale x ≤ 1 :=
  (normCdf_lt_one loc scale x hs).le

/-! ## Numeric bounds used for the first all-painful trial -/

theorem sqrt_two_pi_lt : Real.sqrt (2 * Real.pi) < 2.5067 := by
  rw [Real.sqrt_lt' (by norm_num)]
  nlinarith [Real.pi_lt_d6]

theorem normPdf_399_lb : (0.3969 : ℝ) ≤ normPdf 40 1 39.9 := by
  unfold normPdf
  have hexp : (0.995 : ℝ) ≤ Real.exp (-(((39.9 : ℝ) - 40) ^ 2) / (2 * 1 ^ 2)) := by
    rw [show -(((39.9 : ℝ) - 40) ^ 2) / (2 * 1 ^ 2) = -(0.005) from by norm_num]
    have h := Real.add_one_le_exp (-(0.005 : ℝ))
    linarith
  have hlt := sqrt_two_pi_lt
  have hpos := sqrt_two_pi_pos
  rw [one_mul, le_div_iff hpos]
  nlinarith

theorem interval_pdf_lb : (0.039 : ℝ) ≤ ∫ t in (39.9 : ℝ)..40, normPdf 40 1 t := by
  have h1 : (∫ _t in (39.9 : ℝ)..40, (0.3969 : ℝ)) ≤ ∫ t in (39.9 : ℝ)..40, normPdf 40 1 t := by
    apply intervalIntegral.integral_mono_on (by norm_num)
      intervalIntegrable_const (normPdf_integrable 40 1 one_pos).intervalIntegrable
    intro u hu
    have h2 := normPdf_mono_left 40 1 39.9 u one_pos hu.1 hu.2
    linarith [normPdf_399_lb]
  rw [intervalIntegral.integral_const] at h1
  norm_num at h1
  linarith

theorem pdf3_ratio : normPdf 40 3 39.9 = Real.exp (-(1 / 1800) : ℝ) * normPdf 40 3 40 := by
  unfold normPdf
  rw [show -(((39.9 : ℝ) - 40) ^ 2) / (2 * 3 ^ 2) = -(1 / 1800) from by norm_num]
  rw [show -(((40 : ℝ) - 40) ^ 2) / (2 * 3 ^ 2) = 0 from by norm_num]
  rw [Real.exp_zero]
  ring

theorem exp_neg_small_le_one : Real.exp (-(1 / 1800) : ℝ) ≤ 1 := by
  have h := Real.exp_le_exp.2 (show (-(1 / 1800 : ℝ)) ≤ 0 by norm_num)
  simpa using h

/-! ## Unfolding lemmas for the estimator operations -/

open BayesianEstimatorVAS

theorem conduct_trial_prior (e : BayesianEstimatorVAS) (r : String) (i : ℤ) :
    (conduct_trial e r i).prior = posterior e r := rfl

theorem conduct_trial_current_temp (e : BayesianEstimatorVAS) (r : String) (i : ℤ) :
    (conduct_trial e r i).current_temp =
      np_round1 (e.range_temp.getD (argmaxIdx (posterior e r)) 0) := rfl

theorem conduct_trial_temps (e : BayesianEstimatorVAS) (r : String) (i : ℤ) :
    (conduct_trial e r i).temps =
      e.temps ++ [np_round1 (e.range_temp.getD (argmaxIdx (posterior e r)) 0)] := rfl

theorem conduct_trial_range_temp (e : BayesianEstimatorVAS) (r : String) (i : ℤ) :
    (conduct_trial e r i).range_temp = e.range_temp := rfl

theorem conduct_trial_likelihood_std (e : BayesianEstimatorVAS) (r : String) (i : ℤ) :
    (conduct_trial e r i).likelihood_std = e.likelihood_std * e.reduction_factor := rfl

theorem conduct_trial_reduction_factor (e : BayesianEstimatorVAS) (r : String) (i : ℤ) :
    (conduct_trial e r i).reduction_factor = e.reduction_factor := rfl

theorem conduct_trial_posteriors (e : BayesianEstimatorVAS) (r : String) (i : ℤ) :
    (conduct_trial e r i).posteriors = e.posteriors ++ [posterior e r] := rfl

theorem conduct_trial_maxTempWarnings (e : BayesianEstimatorVAS) (r : String) (i : ℤ) :
    (conduct_trial e r i).maxTempWarnings = e.maxTempWarnings +
      if MAX_TEMP ≤ np_round1 (e.range_temp.getD (argmaxIdx (posterior e r)) 0) then 1
      else 0 := rfl

theorem likelihood_y (e : BayesianEstimatorVAS) :
    likelihood e "y" =
      e.range_temp.map (fun t => 1 - normCdf e.current_temp e.likelihood_std t) := by
  simp [likelihood]

theorem likelihood_n (e : BayesianEstimatorVAS) :
    likelihood e "n" =
      e.range_temp.map (fun t => normCdf e.current_temp e.likelihood_std t) := by
  simp [likelihood]

theorem likelihood_length (e : BayesianEstimatorVAS) (r : String) :
    (likelihood e r).length = e.range_temp.length := by
  unfold likelihood
  split <;> simp

theorem posterior_eq (e : BayesianEstimatorVAS) (r : String) :
    posterior e r =
      (List.zipWith (· * ·) (likelihood e r) e.prior).map
        (fun x => x / (List.zipWith (· * ·) (likelihood e r) e.prior).sum) := rfl

theorem posterior_length (e : BayesianEstimatorVAS) (r : String)
    (hlen : e.prior.length = e.range_temp.length) :
    (posterior e r).length = e.range_temp.length := by
  rw [posterior_eq]
  simp [List.length_zipWith, likelihood_length, hlen]

theorem likelihood_mem_pos (e : BayesianEstimatorVAS) (r : String)
    (hσ : 0 < e.likelihood_std) : ∀ x ∈ likelihood e r, 0 < x := by
  intro x hx
  unfold likelihood at hx
  split at hx
  · rcases List.mem_map.1 hx with ⟨t, _, rfl⟩
    have h := normCdf_lt_one e.current_temp e.likelihood_std t hσ
    linarith
  · rcases List.mem_map.1 hx with ⟨t, _, rfl⟩
    exact normCdf_pos _ _ _ hσ

theorem zipWith_mul_mem_pos {a b : List ℝ} (ha : ∀ x ∈ a, 0 < x) (hb : ∀ x ∈ b, 0 < x) :
    ∀ x ∈ List.zipWith (· * ·) a b, 0 < x := by
  intro x hx
  rw [List.mem_iff_getElem] at hx
  obtain ⟨i, hi, rfl⟩ := hx
  rw [List.getElem_zipWith]
  exact mul_pos (ha _ (List.getElem_mem _)) (hb _ (List.getElem_mem _))

theorem mem_of_getD {l : List ℝ} {i : ℕ} (h : i < l.length) : l.getD i 0 ∈ l := by
  rw [List.getD_eq_getElem?_getD, List.getElem?_eq_getElem h]
  exact List.getElem_mem _

theorem posterior_sum_one (e : BayesianEstimatorVAS) (r : String)
    (hlen : e.prior.length = e.range_temp.length) (hgrid : e.range_temp ≠ [])
    (hp : ∀ x ∈ e.prior, 0 < x) (hσ : 0 < e.likelihood_std) :
    (posterior e r).sum = 1 := by
  rw [posterior_eq, sum_map_div]
  have hqpos : ∀ x ∈ List.zipWith (· * ·) (likelihood e r) e.prior, 0 < x :=
    zipWith_mul_mem_pos (likelihood_mem_pos e r hσ) hp
  have hqne : List.zipWith (· * ·) (likelihood e r) e.prior ≠ [] := by
    apply List.ne_nil_of_length_pos
    rw [List.length_zipWith, likelihood_length, hlen, min_self]
    exact List.length_pos.2 hgrid
  exact div_self (List.sum_pos _ hqpos hqne).ne'

theorem posterior_mem_pos (e : BayesianEstimatorVAS) (r : String)
    (hlen : e.prior.length = e.range_temp.length) (hgrid : e.range_temp ≠ [])
    (hp : ∀ x ∈ e.prior, 0 < x) (hσ : 0 < e.likelihood_std) :
    ∀ x ∈ posterior e r, 0 < x := by
  rw [posterior_eq]
  have hqpos : ∀ x ∈ List.zipWith (· * ·) (likelihood e r) e.prior, 0 < x :=
    zipWith_mul_mem_pos (likelihood_mem_pos e r hσ) hp
  have hqne : List.zipWith (· * ·) (likelihood e r) e.prior ≠ [] := by
    apply List.ne_nil_of_length_pos
    rw [List.length_zipWith, likelihood_length, hlen, min_self]
    exact List.length_pos.2 hgrid
  exact mem_map_div_pos (List.sum_pos _ hqpos hqne) hqpos

theorem posterior_getD (e : BayesianEstimatorVAS) (r : String)
    (hlen : e.prior.length = e.range_temp.length) (j : ℕ) (hj : j < e.range_temp.length) :
    (posterior e r).getD j 0 =
      (List.zipWith (· * ·) (likelihood e r) e.prior).getD j 0 /
        (List.zipWith (· * ·) (likelihood e r) e.prior).sum := by
  rw [posterior_eq]
  apply getD_map_of_lt
  rw [List.length_zipWith, likelihood_length, hlen, min_self]
  exact hj

theorem q_getD (e : BayesianEstimatorVAS) (r : String)
    (hlen : e.prior.length = e.range_temp.length) (j : ℕ) (hj : j < e.range_temp.length) :
    (List.zipWith (· * ·) (likelihood e r) e.prior).getD j 0 =
      (likelihood e r).getD j 0 * e.prior.getD j 0 := by
  apply getD_zipWith_mul
  · rw [likelihood_length]
    exact hj
  · rw [hlen]
    exact hj

theorem likelihood_y_getD (e : BayesianEstimatorVAS) (j : ℕ) (hj : j < e.range_temp.length) :
    (likelihood e "y").getD j 0 =
      1 - normCdf e.current_temp e.likelihood_std (e.range_temp.getD j 0) := by
  rw [likelihood_y]
  exact getD_map_of_lt _ _ _ hj

theorem argmaxIdx_posterior_y_le (e : BayesianEstimatorVAS)
    (hg : e.range_temp = scenarioGrid) (hlen : e.prior.length = 81)
    (hp : ∀ x ∈ e.prior, 0 < x) (hσ : 0 < e.likelihood_std) :
    argmaxIdx (posterior e "y") ≤ argmaxIdx e.prior := by
  have hglen : e.range_temp.length = 81 := by rw [hg]; exact scenarioGrid_length
  have hlen' : e.prior.length = e.range_temp.length := by rw [hglen, hlen]
  have hpne : e.prior ≠ [] := List.ne_nil_of_length_pos (by rw [hlen]; norm_num)
  have hmlt : argmaxIdx e.prior < 81 := by
    rw [← hlen]
    exact argmaxIdx_lt_length e.prior hpne
  have hplen : (posterior e "y").length = 81 := by
    rw [posterior_length e "y" hlen', hglen]
  have hgridne : e.range_temp ≠ [] := List.ne_nil_of_length_pos (by rw [hglen]; norm_num)
  have hqpos : ∀ x ∈ List.zipWith (· * ·) (likelihood e "y") e.prior, 0 < x :=
    zipWith_mul_mem_pos (likelihood_mem_pos e "y" hσ) hp
  have hqne : List.zipWith (· * ·) (likelihood e "y") e.prior ≠ [] := by
    apply List.ne_nil_of_length_pos
    rw [List.length_zipWith, likelihood_length, hlen', min_self, hglen]
    norm_num
  have hS : 0 < (List.zipWith (· * ·) (likelihood e "y") e.prior).sum :=
    List.sum_pos _ hqpos hqne
  apply argmaxIdx_le_of_lt_beyond _ (argmaxIdx e.prior) (by rw [hplen]; exact hmlt)
  intro j hj hjl
  rw [hplen] at hjl
  rw [posterior_getD e "y" hlen' j (by rw [hglen]; exact hjl),
    posterior_getD e "y" hlen' (argmaxIdx e.prior) (by rw [hglen]; exact hmlt)]
  apply (div_lt_div_iff_of_pos_right hS).2
  rw [q_getD e "y" hlen' j (by rw [hglen]; exact hjl),
    q_getD e "y" hlen' (argmaxIdx e.prior) (by rw [hglen]; exact hmlt)]
  have hjg : j < e.range_temp.length := by rw [hglen]; exact hjl
  have hmg : argmaxIdx e.prior < e.range_temp.length := by rw [hglen]; exact hmlt
  rw [likelihood_y_getD e j hjg, likelihood_y_getD e (argmaxIdx e.prior) hmg]
  have hcdf : normCdf e.current_temp e.likelihood_std
        (e.range_temp.getD (argmaxIdx e.prior) 0) <
      normCdf e.current_temp e.likelihood_std (e.range_temp.getD j 0) := by
    apply normCdf_strictMono _ _ _ _ hσ
    rw [hg]
    exact scenarioGrid_strictMono _ j hj hjl
  have hlik_j_pos : 0 < 1 - normCdf e.current_temp e.likelihood_std (e.range_temp.getD j 0) := by
    have h := normCdf_lt_one e.current_temp e.likelihood_std (e.range_temp.getD j 0) hσ
    linarith
  have hprior_le : e.prior.getD j 0 ≤ e.prior.getD (argmaxIdx e.prior) 0 :=
    argmaxIdx_isMax e.prior j (by rw [hlen]; exact hjl)
  have hprior_m_pos : 0 < e.prior.getD (argmaxIdx e.prior) 0 :=
    hp _ (mem_of_getD (by rw [hlen]; exact hmlt))
  calc (1 - normCdf e.current_temp e.likelihood_std (e.range_temp.getD j 0)) *
        e.prior.getD j 0
      ≤ (1 - normCdf e.current_temp e.likelihood_std (e.range_temp.getD j 0)) *
        e.prior.getD (argmaxIdx e.prior) 0 :=
        mul_le_mul_of_nonneg_left hprior_le hlik_j_pos.le
    _ < (1 - normCdf e.current_temp e.likelihood_std
          (e.range_temp.getD (argmaxIdx e.prior) 0)) *
        e.prior.getD (argmaxIdx e.prior) 0 := by
        apply mul_lt_mul_of_pos_right ?_ hprior_m_pos
        linarith


/-! ## Facts about the concrete scenario state e0 -/

theorem normPdf_lt_of_sq_lt (loc scale x y : ℝ) (hs : 0 < scale)
    (h : (y - loc) ^ 2 < (x - loc) ^ 2) : normPdf loc scale x < normPdf loc scale y := by
  unfold normPdf
  have hden : 0 < scale * Real.sqrt (2 * Real.pi) := mul_pos hs sqrt_two_pi_pos
  have h2 : (0 : ℝ) < 2 * scale ^ 2 := by positivity
  have hexp : Real.exp (-((x - loc) ^ 2) / (2 * scale ^ 2)) <
      Real.exp (-((y - loc) ^ 2) / (2 * scale ^ 2)) := by
    apply Real.exp_lt_exp.2
    apply (div_lt_div_iff_of_pos_right h2).2
    linarith
  exact (div_lt_div_iff_of_pos_right hden).2 hexp

theorem e0_range_temp : e0.range_temp = scenarioGrid := rfl

theorem e0_likelihood_std : e0.likelihood_std = 1 := rfl

theorem e0_current_temp : e0.current_temp = 40 := rfl

theorem e0_temps : e0.temps = [40] := rfl

theorem e0_prior_def :
    e0.prior = (scenarioGrid.map (normPdf 40 3)).map
      (fun p => p / (scenarioGrid.map (normPdf 40 3)).sum) := rfl

theorem e0_prior_length : e0.prior.length = 81 := by
  rw [e0_prior_def, List.length_map, List.length_map, scenarioGrid_length]

theorem e0_S_pos : 0 < (scenarioGrid.map (normPdf 40 3)).sum := by
  apply List.sum_pos
  · intro x hx
    rcases List.mem_map.1 hx with ⟨t, _, rfl⟩
    exact normPdf_pos 40 3 t (by norm_num)
  · apply List.ne_nil_of_length_pos
    rw [List.length_map, scenarioGrid_length]
    norm_num

theorem e0_prior_pos : ∀ x ∈ e0.prior, 0 < x := by
  rw [e0_prior_def]
  apply mem_map_div_pos e0_S_pos
  intro x hx
  rcases List.mem_map.1 hx with ⟨t, _, rfl⟩
  exact normPdf_pos 40 3 t (by norm_num)

theorem e0_prior_sum : e0.prior.sum = 1 := by
  rw [e0_prior_def, sum_map_div]
  exact div_self e0_S_pos.ne'

theorem e0_prior_getD (j : ℕ) (hj : j < 81) :
    e0.prior.getD j 0 =
      normPdf 40 3 (scenarioGrid.getD j 0) / (scenarioGrid.map (normPdf 40 3)).sum := by
  rw [e0_prior_def]
  rw [getD_map_of_lt _ _ j (by rw [List.length_map, scenarioGrid_length]; exact hj)]
  rw [getD_map_of_lt _ _ j (by rw [scenarioGrid_length]; exact hj)]

theorem e0_argmax_prior_le_40 : argmaxIdx e0.prior ≤ 40 := by
  apply argmaxIdx_le_of_lt_beyond _ 40 (by rw [e0_prior_length]; norm_num)
  intro j hj hjl
  rw [e0_prior_length] at hjl
  rw [e0_prior_getD j hjl, e0_prior_getD 40 (by norm_num)]
  apply (div_lt_div_iff_of_pos_right e0_S_pos).2
  apply normPdf_lt_of_sq_lt _ _ _ _ (by norm_num)
  rw [scenarioGrid_getD j hjl, scenarioGrid_getD 40 (by norm_num)]
  have hj40 : (40 : ℝ) < (j : ℝ) := by exact_mod_cast hj
  nlinarith

theorem e0_likelihood_std_pos : (0 : ℝ) < e0.likelihood_std := by
  rw [e0_likelihood_std]
  norm_num

theorem e0_len_match : e0.prior.length = e0.range_temp.length := by
  rw [e0_prior_length, e0_range_temp, scenarioGrid_length]

theorem scenarioGrid_getD_39 : scenarioGrid.getD 39 0 = (39.9 : ℝ) := by
  rw [scenarioGrid_getD 39 (by norm_num)]
  norm_num

theorem argmax_posterior_e0_le_39 : argmaxIdx (posterior e0 "y") ≤ 39 := by
  have hσ := e0_likelihood_std_pos
  have hlen := e0_len_match
  have hplen : (posterior e0 "y").length = 81 := by
    rw [posterior_length e0 "y" hlen, e0_range_temp, scenarioGrid_length]
  have hqpos : ∀ x ∈ List.zipWith (· * ·) (likelihood e0 "y") e0.prior, 0 < x :=
    zipWith_mul_mem_pos (likelihood_mem_pos e0 "y" hσ) e0_prior_pos
  have hqne : List.zipWith (· * ·) (likelihood e0 "y") e0.prior ≠ [] := by
    apply List.ne_nil_of_length_pos
    rw [List.length_zipWith, likelihood_length, ← hlen, min_self, e0_prior_length]
    norm_num
  have hqS : 0 < (List.zipWith (· * ·) (likelihood e0 "y") e0.prior).sum :=
    List.sum_pos _ hqpos hqne
  apply argmaxIdx_le_of_lt_beyond _ 39 (by rw [hplen]; norm_num)
  intro j hj hjl
  rw [hplen] at hjl
  have hj81 : j < e0.range_temp.length := by rw [e0_range_temp, scenarioGrid_length]; exact hjl
  have h39 : (39 : ℕ) < e0.range_temp.length := by
    rw [e0_range_temp, scenarioGrid_length]
    norm_num
  rw [posterior_getD e0 "y" hlen j hj81, posterior_getD e0 "y" hlen 39 h39]
  apply (div_lt_div_iff_of_pos_right hqS).2
  rw [q_getD e0 "y" hlen j hj81, q_getD e0 "y" hlen 39 h39,
    likelihood_y_getD e0 j hj81, likelihood_y_getD e0 39 h39]
  rw [e0_current_temp, e0_likelihood_std, e0_range_temp,
    e0_prior_getD j hjl, e0_prior_getD 39 (by norm_num), scenarioGrid_getD_39]
  -- names for the recurring quantities
  set S0 := (scenarioGrid.map (normPdf 40 3)).sum with hS0def
  have hS0 : 0 < S0 := e0_S_pos
  set tj := scenarioGrid.getD j 0 with htjdef
  have htj40 : (40 : ℝ) ≤ tj := by
    rw [htjdef, scenarioGrid_getD j hjl]
    have hcast : (40 : ℝ) ≤ (j : ℝ) := by exact_mod_cast hj
    linarith
  -- cdf facts
  have hsub := normCdf_sub_eq 40 1 39.9 40 one_pos
  have hdlb := interval_pdf_lb
  have hΦ40nn := normCdf_nonneg 40 1 40 one_pos
  have hΦ40le := normCdf_le_one 40 1 40 one_pos
  have hΦ399nn := normCdf_nonneg 40 1 39.9 one_pos
  have hΦjle := normCdf_le_one 40 1 tj one_pos
  have hΦmono := normCdf_mono 40 1 40 tj one_pos htj40
  -- pdf facts
  have hpeak := normPdf_le_peak 40 3 tj (by norm_num)
  have hpdf40 := normPdf_pos 40 3 40 (by norm_num)
  have hpdfjnn := (normPdf_pos 40 3 tj (by norm_num)).le
  have hE0 : 1 - 1 / 1800 ≤ Real.exp (-(1 / 1800) : ℝ) := by
    have h := Real.add_one_le_exp (-(1 / 1800 : ℝ))
    linarith
  have hE1 := exp_neg_small_le_one
  -- the strict scalar inequality
  have hkey : 1 - normCdf 40 1 40 <
      (1 - normCdf 40 1 39.9) * Real.exp (-(1 / 1800) : ℝ) := by
    have hHd : (0 : ℝ) ≤ 1 - normCdf 40 1 39.9 := by linarith
    have h1 : (1 - normCdf 40 1 39.9) * (1 - 1 / 1800) ≤
        (1 - normCdf 40 1 39.9) * Real.exp (-(1 / 1800) : ℝ) :=
      mul_le_mul_of_nonneg_left hE0 hHd
    nlinarith
  calc (1 - normCdf 40 1 tj) * (normPdf 40 3 tj / S0)
      ≤ (1 - normCdf 40 1 40) * (normPdf 40 3 40 / S0) := by
        apply mul_le_mul (by linarith) (by apply (div_le_div_iff_of_pos_right hS0).2 hpeak)
          (by positivity) (by linarith)
    _ < ((1 - normCdf 40 1 39.9) * Real.exp (-(1 / 1800) : ℝ)) * (normPdf 40 3 40 / S0) := by
        apply mul_lt_mul_of_pos_right hkey
        positivity
    _ = (1 - normCdf 40 1 39.9) * (normPdf 40 3 39.9 / S0) := by
        rw [pdf3_ratio]
        ring

/-! ## The all-painful run: invariant preservation -/

theorem descendingInv_e0 : DescendingInv e0 := by
  have hm0 := e0_argmax_prior_le_40
  have hm0lt : argmaxIdx e0.prior < 81 := lt_of_le_of_lt hm0 (by norm_num)
  refine ⟨rfl, e0_prior_length, e0_prior_pos, e0_likelihood_std_pos, ?_, ?_, ?_, ?_⟩
  · rw [show e0.reduction_factor = 0.9 from rfl]
    norm_num
  · rw [e0_temps]
    exact List.pairwise_singleton _ _
  · intro x hx
    rw [e0_temps, List.mem_singleton] at hx
    subst hx
    rw [np_round1_scenarioGrid _ hm0lt]
    calc scenarioGrid.getD (argmaxIdx e0.prior) 0
        ≤ scenarioGrid.getD 40 0 := scenarioGrid_mono _ 40 hm0 (by norm_num)
      _ ≤ 40 := by rw [scenarioGrid_getD 40 (by norm_num)]; norm_num
  · intro x hx
    rw [e0_temps, List.mem_singleton] at hx
    subst hx
    norm_num

theorem descendingInv_step (e : BayesianEstimatorVAS) (h : DescendingInv e) (i : ℤ) :
    DescendingInv (conduct_trial e "y" i) := by
  obtain ⟨hg, hlen, hp, hσ, hrf, hpair, hle, h36⟩ := h
  have hglen : e.range_temp.length = 81 := by rw [hg, scenarioGrid_length]
  have hlen' : e.prior.length = e.range_temp.length := by rw [hlen, hglen]
  have hgridne : e.range_temp ≠ [] := List.ne_nil_of_length_pos (by rw [hglen]; norm_num)
  have hpriorne : e.prior ≠ [] := List.ne_nil_of_length_pos (by rw [hlen]; norm_num)
  have hmlt : argmaxIdx e.prior < 81 := by
    rw [← hlen]
    exact argmaxIdx_lt_length e.prior hpriorne
  have hm' := argmaxIdx_posterior_y_le e hg hlen hp hσ
  have hm'lt : argmaxIdx (posterior e "y") < 81 := lt_of_le_of_lt hm' hmlt
  have hctemp : np_round1 (e.range_temp.getD (argmaxIdx (posterior e "y")) 0) =
      scenarioGrid.getD (argmaxIdx (posterior e "y")) 0 := by
    rw [hg, np_round1_scenarioGrid _ hm'lt]
  have hnewle : scenarioGrid.getD (argmaxIdx (posterior e "y")) 0 ≤
      np_round1 (scenarioGrid.getD (argmaxIdx e.prior) 0) := by
    rw [np_round1_scenarioGrid _ hmlt]
    exact scenarioGrid_mono _ _ hm' hmlt
  have hnew36 : (36 : ℝ) ≤ scenarioGrid.getD (argmaxIdx (posterior e "y")) 0 := by
    rw [scenarioGrid_getD _ hm'lt]
    have hc : (0 : ℝ) ≤ (argmaxIdx (posterior e "y") : ℝ) := Nat.cast_nonneg _
    linarith
  refine ⟨?_, ?_, ?_, ?_, ?_, ?_, ?_, ?_⟩
  · rw [conduct_trial_range_temp]
    exact hg
  · rw [conduct_trial_prior, posterior_length e "y" hlen', hglen]
  · rw [conduct_trial_prior]
    exact posterior_mem_pos e "y" hlen' hgridne hp hσ
  · rw [conduct_trial_likelihood_std]
    exact mul_pos hσ hrf
  · rw [conduct_trial_reduction_factor]
    exact hrf
  · rw [conduct_trial_temps]
    apply List.pairwise_append.2
    refine ⟨hpair, List.pairwise_singleton _ _, ?_⟩
    intro a ha b hb
    rw [List.mem_singleton] at hb
    subst hb
    show np_round1 (e.range_temp.getD (argmaxIdx (posterior e "y")) 0) ≤ a
    rw [hctemp]
    exact le_trans (le_trans hnewle (hle a ha)) le_rfl
  · intro x hx
    rw [conduct_trial_temps] at hx
    rw [conduct_trial_prior]
    rcases List.mem_append.1 hx with hx1 | hx2
    · calc np_round1 (scenarioGrid.getD (argmaxIdx (posterior e "y")) 0)
          = scenarioGrid.getD (argmaxIdx (posterior e "y")) 0 :=
            np_round1_scenarioGrid _ hm'lt
        _ ≤ np_round1 (scenarioGrid.getD (argmaxIdx e.prior) 0) := hnewle
        _ ≤ x := hle x hx1
    · rw [List.mem_singleton] at hx2
      subst hx2
      rw [hctemp, np_round1_scenarioGrid _ hm'lt]
  · intro x hx
    rw [conduct_trial_temps] at hx
    rcases List.mem_append.1 hx with hx1 | hx2
    · exact h36 x hx1
    · rw [List.mem_singleton] at hx2
      subst hx2
      rw [hctemp]
      exact hnew36

theorem eAllPainful_eq : eAllPainful =
    conduct_trial (conduct_trial (conduct_trial (conduct_trial
      (conduct_trial e0 "y" 0) "y" 1) "y" 2) "y" 3) "y" 4 := rfl

theorem descendingInv_eAllPainful : DescendingInv eAllPainful := by
  rw [eAllPainful_eq]
  exact descendingInv_step _ (descendingInv_step _ (descendingInv_step _
    (descendingInv_step _ (descendingInv_step _ descendingInv_e0 0) 1) 2) 3) 4

/-! ## Temps bookkeeping for the all-painful run -/

theorem conduct_trial_temps_length (e : BayesianEstimatorVAS) (r : String) (i : ℤ) :
    (conduct_trial e r i).temps.length = e.temps.length + 1 := by
  rw [conduct_trial_temps]
  simp

theorem eAllPainful_temps_length : eAllPainful.temps.length = 6 := by
  rw [eAllPainful_eq, conduct_trial_temps_length, conduct_trial_temps_length,
    conduct_trial_temps_length, conduct_trial_temps_length, conduct_trial_temps_length,
    e0_temps]
  rfl

theorem runTrials_temps_append :
    ∀ (l : List (String × ℤ)) (e : BayesianEstimatorVAS),
      ∃ s, (runTrials e l).temps = e.temps ++ s := by
  intro l
  induction l with
  | nil => exact fun e => ⟨[], by simp [runTrials]⟩
  | cons p rest ih =>
    intro e
    obtain ⟨r, i⟩ := p
    obtain ⟨s, hs⟩ := ih (conduct_trial e r i)
    refine ⟨[np_round1 (e.range_temp.getD (argmaxIdx (posterior e r)) 0)] ++ s, ?_⟩
    show (runTrials (conduct_trial e r i) rest).temps = _
    rw [hs, conduct_trial_temps, List.append_assoc]

theorem conduct_e0_first_temp_le :
    (conduct_trial e0 "y" 0).current_temp ≤ 39.9 := by
  rw [conduct_trial_current_temp, e0_range_temp]
  have hm := argmax_posterior_e0_le_39
  have hmlt : argmaxIdx (posterior e0 "y") < 81 := lt_of_le_of_lt hm (by norm_num)
  rw [np_round1_scenarioGrid _ hmlt]
  calc scenarioGrid.getD (argmaxIdx (posterior e0 "y")) 0
      ≤ scenarioGrid.getD 39 0 := scenarioGrid_mono _ 39 hm (by norm_num)
    _ = 39.9 := scenarioGrid_getD_39

theorem eAllPainful_temps_shape :
    ∃ s, eAllPainful.temps = 40 :: (conduct_trial e0 "y" 0).current_temp :: s := by
  obtain ⟨s, hs⟩ :=
    runTrials_temps_append [("y", 1), ("y", 2), ("y", 3), ("y", 4)] (conduct_trial e0 "y" 0)
  refine ⟨s, ?_⟩
  have h1 : eAllPainful = runTrials (conduct_trial e0 "y" 0)
      [("y", 1), ("y", 2), ("y", 3), ("y", 4)] := rfl
  rw [h1, hs, conduct_trial_temps, e0_temps, conduct_trial_current_temp]
  rfl

theorem eAllPainful_temps_getD0 : eAllPainful.temps.getD 0 0 = 40 := by
  obtain ⟨s, hs⟩ := eAllPainful_temps_shape
  rw [hs]
  rfl

theorem eAllPainful_temps_getD1_le : eAllPainful.temps.getD 1 0 ≤ 39.9 := by
  obtain ⟨s, hs⟩ := eAllPainful_temps_shape
  rw [hs]
  exact conduct_e0_first_temp_le

/-! ## Steps and validate_steps helper lemmas -/

theorem steps_nonpos_of_pairwise (e : BayesianEstimatorVAS)
    (h : List.Pairwise (· ≥ ·) e.temps) : ∀ x ∈ steps e, x ≤ 0 := by
  intro x hx
  unfold steps npDiff at hx
  rw [List.mem_iff_getElem] at hx
  obtain ⟨i, hi, rfl⟩ := hx
  rw [List.getElem_zipWith]
  have hti : i < e.temps.tail.length := by
    rw [List.length_zipWith] at hi
    omega
  have hlen := List.length_tail e.temps
  have hi1 : i + 1 < e.temps.length := by omega
  have hii : i < e.temps.length := by omega
  have htail := List.getElem_tail e.temps i hti
  rw [htail]
  have hpair := List.pairwise_iff_getElem.1 h i (i + 1) hii hi1 (by omega)
  simp only [ge_iff_le] at hpair
  linarith

theorem validate_steps_false_of_nonpos (e : BayesianEstimatorVAS)
    (h : ∀ x ∈ steps e, x ≤ 0) : validate_steps e = false := by
  unfold validate_steps
  rw [if_pos (Or.inr h)]

theorem validate_steps_false_of_nonneg (e : BayesianEstimatorVAS)
    (h : ∀ x ∈ steps e, 0 ≤ x) : validate_steps e = false := by
  unfold validate_steps
  rw [if_pos (Or.inl h)]

/-! ## Evaluating the constructor on the concrete scenario -/

theorem init_scenario : init 50 3 40 3 1 0.9 = Except.ok e0 := by
  have hw : rangeWidth? 3 = some 4 := by
    unfold rangeWidth? pyInt
    rw [if_pos (by norm_num : (0 : ℝ) ≤ 3)]
    norm_num
  unfold init
  rw [hw]
  show Except.ok _ = Except.ok e0
  refine congrArg Except.ok ?_
  have hnum : (pyInt (((40 : ℝ) + 4 - (40 - 4)) / 0.1) + 1).toNat = 81 := by
    unfold pyInt
    rw [if_pos (by norm_num)]
    norm_num
    decide
  rw [hnum]
  norm_num [e0, scenarioGrid]

/-! ## The normalization invariant: establishment and preservation -/

theorem rangeWidth?_cases (tstd w : ℝ) (hw : rangeWidth? tstd = some w) :
    w = 1 ∨ w = 2 ∨ w = 3 ∨ w = 4 := by
  unfold rangeWidth? at hw
  split_ifs at hw <;> injection hw with h
  · left
    linarith
  · right
    left
    linarith
  · right
    right
    left
    linarith
  · right
    right
    right
    linarith

theorem init_WF (v n : ℤ) (ts tstd lstd rf : ℝ) (e : BayesianEstimatorVAS)
    (he : init v n ts tstd lstd rf = Except.ok e)
    (h1 : 0 < tstd) (h2 : 0 < lstd) (h3 : 0 < rf) : WFState e := by
  unfold init at he
  cases hw : rangeWidth? tstd with
  | none =>
    rw [hw] at he
    exact absurd he (by simp)
  | some w =>
    rw [hw] at he
    injection he with he2
    subst he2
    have hwpos : (0 : ℝ) < w := by
      rcases rangeWidth?_cases tstd w hw with h | h | h | h <;> rw [h] <;> norm_num
    have hznn : (0 : ℝ) ≤ (ts + w - (ts - w)) / 0.1 := by
      have hx : ts + w - (ts - w) = 2 * w := by ring
      rw [hx]
      positivity
    have hnum : 0 < (pyInt ((ts + w - (ts - w)) / 0.1) + 1).toNat := by
      have hfl : (0 : ℤ) ≤ pyInt ((ts + w - (ts - w)) / 0.1) := by
        unfold pyInt
        rw [if_pos hznn]
        exact Int.floor_nonneg.2 hznn
      omega
    have hgridne : linspace (ts - w) (ts + w) ((pyInt ((ts + w - (ts - w)) / 0.1) + 1).toNat)
        ≠ [] := by
      apply List.ne_nil_of_length_pos
      rw [linspace_length]
      exact hnum
    have hpdfpos : ∀ x ∈ (linspace (ts - w) (ts + w)
        ((pyInt ((ts + w - (ts - w)) / 0.1) + 1).toNat)).map (normPdf ts tstd), 0 < x := by
      intro x hx
      rcases List.mem_map.1 hx with ⟨t, _, rfl⟩
      exact normPdf_pos ts tstd t h1
    have hSpos : 0 < ((linspace (ts - w) (ts + w)
        ((pyInt ((ts + w - (ts - w)) / 0.1) + 1).toNat)).map (normPdf ts tstd)).sum := by
      apply List.sum_pos _ hpdfpos
      intro hc
      exact hgridne (List.map_eq_nil_iff.1 hc)
    refine ⟨?_, hgridne, ?_, ?_, h2, h3, ?_⟩
    · simp
    · exact mem_map_div_pos hSpos hpdfpos
    · rw [sum_map_div]
      exact div_self hSpos.ne'
    · intro p hp
      simp at hp

theorem WF_step (e : BayesianEstimatorVAS) (hWF : WFState e) (r : String) (i : ℤ) :
    WFState (conduct_trial e r i) := by
  obtain ⟨hlen, hne, hp, hsum, hσ, hrf, hposts⟩ := hWF
  refine ⟨?_, ?_, ?_, ?_, ?_, ?_, ?_⟩
  · rw [conduct_trial_prior, conduct_trial_range_temp, posterior_length e r hlen]
  · rw [conduct_trial_range_temp]
    exact hne
  · rw [conduct_trial_prior]
    exact posterior_mem_pos e r hlen hne hp hσ
  · rw [conduct_trial_prior]
    exact posterior_sum_one e r hlen hne hp hσ
  · rw [conduct_trial_likelihood_std]
    exact mul_pos hσ hrf
  · rw [conduct_trial_reduction_factor]
    exact hrf
  · intro p hp2
    rw [conduct_trial_posteriors] at hp2
    rcases List.mem_append.1 hp2 with h | h
    · exact hposts p h
    · rw [List.mem_singleton] at h
      subst h
      exact posterior_sum_one e r hlen hne hp hσ

theorem WF_runTrials (l : List (String × ℤ)) :
    ∀ e : BayesianEstimatorVAS, WFState e → WFState (runTrials e l) := by
  induction l with
  | nil => exact fun e h => h
  | cons p rest ih =>
    intro e h
    obtain ⟨r, i⟩ := p
    exact ih (conduct_trial e r i) (WF_step e h r i)

/-! ## Remaining small helpers -/

theorem likelihood_n_getD (e : BayesianEstimatorVAS) (j : ℕ) (hj : j < e.range_temp.length) :
    (likelihood e "n").getD j 0 =
      normCdf e.current_temp e.likelihood_std (e.range_temp.getD j 0) := by
  rw [likelihood_n]
  exact getD_map_of_lt _ _ _ hj

theorem getD_eq_getElem_of_lt (l : List ℝ) (i : ℕ) (h : i < l.length) : l.getD i 0 = l[i] := by
  rw [List.getD_eq_getElem?_getD, List.getElem?_eq_getElem h]
  rfl

theorem rangeWidth?_3 : rangeWidth? 3 = some 4 := by
  unfold rangeWidth? pyInt
  rw [if_pos (by norm_num : (0 : ℝ) ≤ 3)]
  norm_num

theorem eDegenerate_zip_sum :
    (List.zipWith (· * ·) (likelihood eDegenerate "n") eDegenerate.prior).sum = 0 := by
  rw [likelihood_n]
  show (List.zipWith (· * ·) (([(36 : ℝ), 37]).map
    (fun t => normCdf eDegenerate.current_temp eDegenerate.likelihood_std t)) [0, 0]).sum = 0
  simp

/-! ## Claim C1 -/

/-- Claim C1 (corrected).  Along the temperature grid, the likelihood built
from the painful response "y" is non-increasing in temperature, and the one
built from the not-painful response "n" is non-decreasing — the opposite
directions of the ones claimed by the spec. -/
theorem claim_C1_monotone_likelihood (e : BayesianEstimatorVAS)
    (hσ : 0 < e.likelihood_std) (i j : ℕ)
    (hi : i < e.range_temp.length) (hj : j < e.range_temp.length)
    (hval : e.range_temp.getD i 0 ≤ e.range_temp.getD j 0) :
    (likelihood e "y").getD j 0 ≤ (likelihood e "y").getD i 0 ∧
    (likelihood e "n").getD i 0 ≤ (likelihood e "n").getD j 0 := by
  rw [likelihood_y_getD e i hi, likelihood_y_getD e j hj,
    likelihood_n_getD e i hi, likelihood_n_getD e j hj]
  have h := normCdf_mono e.current_temp e.likelihood_std _ _ hσ hval
  exact ⟨by linarith, h⟩

/-- Witness for C1 at the concrete scenario state, grid indices 0 and 80. -/
theorem claim_C1_monotone_likelihood_witness :
    ((0 : ℝ) < e0.likelihood_std ∧ e0.range_temp.getD 0 0 ≤ e0.range_temp.getD 80 0) ∧
    ((likelihood e0 "y").getD 80 0 ≤ (likelihood e0 "y").getD 0 0 ∧
     (likelihood e0 "n").getD 0 0 ≤ (likelihood e0 "n").getD 80 0) := by
  have hσ := e0_likelihood_std_pos
  have hlen : (80 : ℕ) < e0.range_temp.length := by
    rw [e0_range_temp, scenarioGrid_length]
    norm_num
  have hlen0 : (0 : ℕ) < e0.range_temp.length := by
    rw [e0_range_temp, scenarioGrid_length]
    norm_num
  have hval : e0.range_temp.getD 0 0 ≤ e0.range_temp.getD 80 0 := by
    rw [e0_range_temp]
    exact scenarioGrid_mono 0 80 (by norm_num) (by norm_num)
  exact ⟨⟨hσ, hval⟩, claim_C1_monotone_likelihood e0 hσ 0 80 hlen0 hlen hval⟩

/-- Counterexample to C1 as stated: on the scenario state, the grid strictly
increases from index 0 (36 °C) to index 80 (44 °C), yet the "painful"
likelihood strictly decreases there, so it is not non-decreasing. -/
theorem claim_C1_counterexample :
    e0.range_temp.getD 0 0 < e0.range_temp.getD 80 0 ∧
    (likelihood e0 "y").getD 80 0 < (likelihood e0 "y").getD 0 0 := by
  have hlen : (80 : ℕ) < e0.range_temp.length := by
    rw [e0_range_temp, scenarioGrid_length]
    norm_num
  have hlen0 : (0 : ℕ) < e0.range_temp.length := by
    rw [e0_range_temp, scenarioGrid_length]
    norm_num
  have hval : e0.range_temp.getD 0 0 < e0.range_temp.getD 80 0 := by
    rw [e0_range_temp]
    exact scenarioGrid_strictMono 0 80 (by norm_num) (by norm_num)
  refine ⟨hval, ?_⟩
  rw [likelihood_y_getD e0 0 hlen0, likelihood_y_getD e0 80 hlen]
  have h := normCdf_strictMono e0.current_temp e0.likelihood_std
    (e0.range_temp.getD 0 0) (e0.range_temp.getD 80 0) e0_likelihood_std_pos hval
  linarith

/-! ## Claim C2 -/

/-- Claim C2 (confirmed).  conduct_trial distinguishes the two response
values of the interface ("y" = painful, anything else, i.e. "n" = not
painful): "y" builds the likelihood 1 - cdf(t; loc = current_temp,
scale = likelihood_std) over the grid and "n" builds cdf(t; ...); and from a
state whose grid contains two distinct temperatures and whose prior is
strictly positive, the two responses produce different likelihood arrays and
different normalized posteriors. -/
theorem claim_C2_response_distinction (e : BayesianEstimatorVAS) (i j : ℕ)
    (hσ : 0 < e.likelihood_std) (hlen : e.prior.length = e.range_temp.length)
    (hi : i < e.range_temp.length) (hj : j < e.range_temp.length)
    (hval : e.range_temp.getD i 0 < e.range_temp.getD j 0)
    (hp : ∀ x ∈ e.prior, 0 < x) :
    likelihood e "y" =
      e.range_temp.map (fun t => 1 - normCdf e.current_temp e.likelihood_std t) ∧
    likelihood e "n" =
      e.range_temp.map (fun t => normCdf e.current_temp e.likelihood_std t) ∧
    likelihood e "y" ≠ likelihood e "n" ∧
    posterior e "y" ≠ posterior e "n" := by
  have hmono := normCdf_strictMono e.current_temp e.likelihood_std
    (e.range_temp.getD i 0) (e.range_temp.getD j 0) hσ hval
  refine ⟨likelihood_y e, likelihood_n e, ?_, ?_⟩
  · intro heq
    have hli := congrArg (fun l => l.getD i 0) heq
    have hlj := congrArg (fun l => l.getD j 0) heq
    simp only at hli hlj
    rw [likelihood_y_getD e i hi, likelihood_n_getD e i hi] at hli
    rw [likelihood_y_getD e j hj, likelihood_n_getD e j hj] at hlj
    linarith
  · intro heq
    have hqposy : ∀ x ∈ List.zipWith (· * ·) (likelihood e "y") e.prior, 0 < x :=
      zipWith_mul_mem_pos (likelihood_mem_pos e "y" hσ) hp
    have hqposn : ∀ x ∈ List.zipWith (· * ·) (likelihood e "n") e.prior, 0 < x :=
      zipWith_mul_mem_pos (likelihood_mem_pos e "n" hσ) hp
    have hqney : List.zipWith (· * ·) (likelihood e "y") e.prior ≠ [] := by
      apply List.ne_nil_of_length_pos
      rw [List.length_zipWith, likelihood_length, ← hlen, min_self]
      rw [hlen]
      omega
    have hqnen : List.zipWith (· * ·) (likelihood e "n") e.prior ≠ [] := by
      apply List.ne_nil_of_length_pos
      rw [List.length_zipWith, likelihood_length, ← hlen, min_self]
      rw [hlen]
      omega
    have hSy : 0 < (List.zipWith (· * ·) (likelihood e "y") e.prior).sum :=
      List.sum_pos _ hqposy hqney
    have hSn : 0 < (List.zipWith (· * ·) (likelihood e "n") e.prior).sum :=
      List.sum_pos _ hqposn hqnen
    have hpi := congrArg (fun l => l.getD i 0) heq
    have hpj := congrArg (fun l => l.getD j 0) heq
    simp only at hpi hpj
    rw [posterior_getD e "y" hlen i hi, posterior_getD e "n" hlen i hi,
      q_getD e "y" hlen i hi, q_getD e "n" hlen i hi,
      likelihood_y_getD e i hi, likelihood_n_getD e i hi] at hpi
    rw [posterior_getD e "y" hlen j hj, posterior_getD e "n" hlen j hj,
      q_getD e "y" hlen j hj, q_getD e "n" hlen j hj,
      likelihood_y_getD e j hj, likelihood_n_getD e j hj] at hpj
    have hpipos : 0 < e.prior.getD i 0 := hp _ (mem_of_getD (by rw [hlen]; exact hi))
    have hpjpos : 0 < e.prior.getD j 0 := hp _ (mem_of_getD (by rw [hlen]; exact hj))
    -- cancel the positive prior entries and cross-multiply
    rw [div_eq_div_iff hSy.ne' hSn.ne'] at hpi hpj
    have hki : (1 - normCdf e.current_temp e.likelihood_std (e.range_temp.getD i 0)) *
        (List.zipWith (· * ·) (likelihood e "n") e.prior).sum =
        normCdf e.current_temp e.likelihood_std (e.range_temp.getD i 0) *
        (List.zipWith (· * ·) (likelihood e "y") e.prior).sum := by
      have h0 : ((1 - normCdf e.current_temp e.likelihood_std (e.range_temp.getD i 0)) *
          (List.zipWith (· * ·) (likelihood e "n") e.prior).sum -
          normCdf e.current_temp e.likelihood_std (e.range_temp.getD i 0) *
          (List.zipWith (· * ·) (likelihood e "y") e.prior).sum) * e.prior.getD i 0 = 0 := by
        linear_combination hpi
      rcases mul_eq_zero.1 h0 with h | h
      · linarith
      · exact absurd h hpipos.ne'
    have hkj : (1 - normCdf e.current_temp e.likelihood_std (e.range_temp.getD j 0)) *
        (List.zipWith (· * ·) (likelihood e "n") e.prior).sum =
        normCdf e.current_temp e.likelihood_std (e.range_temp.getD j 0) *
        (List.zipWith (· * ·) (likelihood e "y") e.prior).sum := by
      have h0 : ((1 - normCdf e.current_temp e.likelihood_std (e.range_temp.getD j 0)) *
          (List.zipWith (· * ·) (likelihood e "n") e.prior).sum -
          normCdf e.current_temp e.likelihood_std (e.range_temp.getD j 0) *
          (List.zipWith (· * ·) (likelihood e "y") e.prior).sum) * e.prior.getD j 0 = 0 := by
        linear_combination hpj
      rcases mul_eq_zero.1 h0 with h | h
      · linarith
      · exact absurd h hpjpos.ne'
    nlinarith [hki, hkj, mul_pos (sub_pos.2 hmono)
      (add_pos hSy hSn)]

/-- Witness for C2 at the concrete scenario state, grid indices 0 and 80. -/
theorem claim_C2_response_distinction_witness :
    ((0 : ℝ) < e0.likelihood_std ∧ e0.range_temp.getD 0 0 < e0.range_temp.getD 80 0) ∧
    (likelihood e0 "y" ≠ likelihood e0 "n" ∧ posterior e0 "y" ≠ posterior e0 "n") := by
  have hσ := e0_likelihood_std_pos
  have hlen80 : (80 : ℕ) < e0.range_temp.length := by
    rw [e0_range_temp, scenarioGrid_length]
    norm_num
  have hlen0 : (0 : ℕ) < e0.range_temp.length := by
    rw [e0_range_temp, scenarioGrid_length]
    norm_num
  have hval : e0.range_temp.getD 0 0 < e0.range_temp.getD 80 0 := by
    rw [e0_range_temp]
    exact scenarioGrid_strictMono 0 80 (by norm_num) (by norm_num)
  have h := claim_C2_response_distinction e0 0 80 hσ e0_len_match hlen0 hlen80 hval e0_prior_pos
  exact ⟨⟨hσ, hval⟩, h.2.2.1, h.2.2.2⟩

/-! ## Claim C3 -/

/-- Counterexample to C3 as stated: in the concrete scenario, already the
first all-painful trial strictly lowers the chosen temperature, so the
temperature history is not non-decreasing. -/
theorem claim_C3_counterexample :
    (conduct_trial e0 "y" 0).temps.getD 1 0 < (conduct_trial e0 "y" 0).temps.getD 0 0 := by
  rw [conduct_trial_temps, e0_temps]
  simp only [List.cons_append, List.nil_append, List.getD_cons_succ, List.getD_cons_zero]
  rw [← conduct_trial_current_temp e0 "y" 0]
  linarith [conduct_e0_first_temp_le]

/-- Claim C3 (corrected).  For the concrete scenario estimator with five
all-painful ("y") responses, the temperature history is non-increasing (it
strictly decreases at the first trial and moves toward the grid lower bound
36 °C, not the upper bound), and validate_steps() returns false. -/
theorem claim_C3_all_painful :
    List.Pairwise (· ≥ ·) eAllPainful.temps ∧
    eAllPainful.temps.getD 1 0 < eAllPainful.temps.getD 0 0 ∧
    36 ≤ get_estimate eAllPainful ∧ get_estimate eAllPainful < 40 ∧
    validate_steps eAllPainful = false := by
  obtain ⟨_, _, _, _, _, hpair, _, h36⟩ := descendingInv_eAllPainful
  have hgd1 : eAllPainful.temps.getD 1 0 < eAllPainful.temps.getD 0 0 := by
    rw [eAllPainful_temps_getD0]
    linarith [eAllPainful_temps_getD1_le]
  refine ⟨hpair, hgd1, ?_, ?_, ?_⟩
  · show 36 ≤ eAllPainful.temps.getD (eAllPainful.temps.length - 1) 0
    apply h36
    apply mem_of_getD
    rw [eAllPainful_temps_length]
    norm_num
  · show eAllPainful.temps.getD (eAllPainful.temps.length - 1) 0 < 40
    have h5 : (5 : ℕ) < eAllPainful.temps.length := by rw [eAllPainful_temps_length]; norm_num
    have h1 : (1 : ℕ) < eAllPainful.temps.length := by rw [eAllPainful_temps_length]; norm_num
    have hlen51 : eAllPainful.temps.length - 1 = 5 := by rw [eAllPainful_temps_length]
    rw [hlen51, getD_eq_getElem_of_lt _ 5 h5]
    have hordered := List.pairwise_iff_getElem.1 hpair 1 5 h1 h5 (by norm_num)
    simp only [ge_iff_le] at hordered
    rw [getD_eq_getElem_of_lt _ 1 h1, eAllPainful_temps_getD0] at hgd1
    linarith
  · exact validate_steps_false_of_nonpos _ (steps_nonpos_of_pairwise _ hpair)

/-! ## Claim C4 -/

/-- Claim C4 (confirmed).  After every trial update, current_temp is exactly
the grid point at the argmax of the normalized posterior, rounded to one
decimal — never clamped to MAX_TEMP; the setter only counts (logs) a warning
when the stored value reaches or exceeds MAX_TEMP = 48.  Construction also
stores temp_start itself with no warning and no clamping. -/
theorem claim_C4_no_clamping (e : BayesianEstimatorVAS) (r : String) (t : ℤ) :
    ((conduct_trial e r t).current_temp =
       np_round1 (e.range_temp.getD (argmaxIdx (posterior e r)) 0) ∧
     (conduct_trial e r t).maxTempWarnings = e.maxTempWarnings +
       if MAX_TEMP ≤ np_round1 (e.range_temp.getD (argmaxIdx (posterior e r)) 0) then 1
       else 0) ∧
    ∀ (v n : ℤ) (ts tstd lstd rf : ℝ) (e2 : BayesianEstimatorVAS),
      init v n ts tstd lstd rf = Except.ok e2 →
      e2.current_temp = ts ∧ e2.maxTempWarnings = 0 := by
  refine ⟨⟨conduct_trial_current_temp e r t, conduct_trial_maxTempWarnings e r t⟩, ?_⟩
  intro v n ts tstd lstd rf e2 he
  unfold init at he
  cases hw : rangeWidth? tstd with
  | none =>
    rw [hw] at he
    exact absurd he (by simp)
  | some w =>
    rw [hw] at he
    injection he with he2
    subst he2
    exact ⟨rfl, rfl⟩

/-- Witness for C4 at the concrete scenario. -/
theorem claim_C4_no_clamping_witness :
    (conduct_trial e0 "y" 0).current_temp =
      np_round1 (e0.range_temp.getD (argmaxIdx (posterior e0 "y")) 0) ∧
    e0.current_temp = 40 ∧ e0.maxTempWarnings = 0 :=
  ⟨(claim_C4_no_clamping e0 "y" 0).1.1,
   ((claim_C4_no_clamping e0 "y" 0).2 50 3 40 3 1 0.9 e0 init_scenario).1,
   ((claim_C4_no_clamping e0 "y" 0).2 50 3 40 3 1 0.9 e0 init_scenario).2⟩

/-! ## Claim C5 -/

/-- Counterexample to C5 as stated: construction succeeds (returns a usable
estimator, no error) with a negative trial count, with a negative
likelihood_std, and with a reduction_factor of 2 outside (0,1). -/
theorem claim_C5_counterexample :
    (init 50 (-1) 40 3 1 0.9).isOk = true ∧
    (init 50 3 40 3 (-1) 0.9).isOk = true ∧
    (init 50 3 40 3 1 2).isOk = true := by
  refine ⟨?_, ?_, ?_⟩ <;> · unfold init
                            rw [rangeWidth?_3]
                            rfl

/-- Claim C5 (corrected).  Construction fails fast if and only if the
integer truncation of temp_std is outside {0, 1, 2, 3}; non-positive trials
or likelihood_std and a reduction_factor outside (0,1) are accepted without
any error. -/
theorem claim_C5_validation (v n : ℤ) (ts tstd lstd rf : ℝ) :
    (init v n ts tstd lstd rf).isOk = true ↔
      (pyInt tstd = 0 ∨ pyInt tstd = 1 ∨ pyInt tstd = 2 ∨ pyInt tstd = 3) := by
  unfold init
  unfold rangeWidth?
  split_ifs with h0 h1 h2 h3
  · simp [Except.isOk, Except.toBool, h0]
  · simp [Except.isOk, Except.toBool, h1]
  · simp [Except.isOk, Except.toBool, h2]
  · simp [Except.isOk, Except.toBool, h3]
  · simp [Except.isOk, Except.toBool, h0, h1, h2, h3]

/-! ## Claim C6 -/

/-- Counterexample to C6 as stated: a negative trial index (-7) and an index
far beyond the budget (99 with trials = 3) are both accepted: conduct_trial
performs the normal update (appending one temperature) instead of failing,
and the out-of-range index produces exactly the in-range result. -/
theorem claim_C6_counterexample :
    conduct_trial e0 "y" (-7) = conduct_trial e0 "y" 0 ∧
    (conduct_trial e0 "y" 99).temps.length = e0.temps.length + 1 :=
  ⟨rfl, conduct_trial_temps_length e0 "y" 99⟩

/-- Claim C6 (corrected).  conduct_trial performs no range check on the
trial index: any index, negative or at least the trial budget, yields the
same normal update as index 0 (one temperature appended, no error and no
clamping of the index). -/
theorem claim_C6_no_index_check (e : BayesianEstimatorVAS) (r : String) (i : ℤ)
    (hout : i < 0 ∨ e.trials ≤ i) :
    conduct_trial e r i = conduct_trial e r 0 ∧
    (conduct_trial e r i).temps.length = e.temps.length + 1 :=
  ⟨rfl, conduct_trial_temps_length e r i⟩

/-- Witness for C6 at the concrete scenario with the negative index -7. -/
theorem claim_C6_no_index_check_witness :
    ((-7 : ℤ) < 0 ∨ e0.trials ≤ -7) ∧
    (conduct_trial e0 "y" (-7) = conduct_trial e0 "y" 0 ∧
     (conduct_trial e0 "y" (-7)).temps.length = e0.temps.length + 1) :=
  ⟨Or.inl (by norm_num), claim_C6_no_index_check e0 "y" (-7) (Or.inl (by norm_num))⟩

/-! ## Claim C7 -/

/-- Counterexample to C7 as stated: on a degenerate state whose prior is
identically zero, the elementwise product of likelihood and prior sums to
exactly zero, yet conduct_trial does not fail — it normalizes by the zero
sum anyway and installs the resulting degenerate all-zero posterior (the
exact-arithmetic analogue of the NaN array Python would produce) as the next
prior. -/
theorem claim_C7_counterexample :
    (List.zipWith (· * ·) (likelihood eDegenerate "n") eDegenerate.prior).sum = 0 ∧
    (conduct_trial eDegenerate "n" 0).prior = [0, 0] := by
  refine ⟨eDegenerate_zip_sum, ?_⟩
  rw [conduct_trial_prior, posterior_eq, eDegenerate_zip_sum]
  rw [show List.zipWith (· * ·) (likelihood eDegenerate "n") eDegenerate.prior =
      [0, 0] from ?_]
  · norm_num
  · rw [likelihood_n]
    show List.zipWith _ (([(36 : ℝ), 37]).map
      (fun t => normCdf eDegenerate.current_temp eDegenerate.likelihood_std t)) [0, 0] = [0, 0]
    simp

/-- Claim C7 (corrected).  conduct_trial contains no underflow guard: when
the elementwise product of likelihood and prior sums to zero it does not
raise an error; instead every entry of the installed posterior (the new
prior) is the junk value 0 — garbage is propagated into subsequent state
rather than surfaced to the caller. -/
theorem claim_C7_no_underflow_guard (e : BayesianEstimatorVAS) (r : String) (i : ℤ)
    (hsum : (List.zipWith (· * ·) (likelihood e r) e.prior).sum = 0) :
    ∀ x ∈ (conduct_trial e r i).prior, x = 0 := by
  intro x hx
  rw [conduct_trial_prior, posterior_eq, hsum] at hx
  rcases List.mem_map.1 hx with ⟨y, _, rfl⟩
  simp

/-- Witness for C7 at the degenerate state. -/
theorem claim_C7_no_underflow_guard_witness :
    (List.zipWith (· * ·) (likelihood eDegenerate "n") eDegenerate.prior).sum = 0 ∧
    ∀ x ∈ (conduct_trial eDegenerate "n" 0).prior, x = 0 :=
  ⟨eDegenerate_zip_sum,
   claim_C7_no_underflow_guard eDegenerate "n" 0 eDegenerate_zip_sum⟩

/-! ## Claim C8 -/

/-- Claim C8 (confirmed).  With positive temp_std, likelihood_std and
reduction_factor, any successful construction yields a strictly normalized
prior (sum exactly 1 in the exact-arithmetic model, hence within any
tolerance), and after any sequence of trials the current prior still sums to
1 and every posterior stored in the diagnostic list sums to 1: the invariant
is established by the normalization in __init__ and preserved by the
renormalization in every conduct_trial. -/
theorem claim_C8_normalization_invariant (v n : ℤ) (ts tstd lstd rf : ℝ)
    (e : BayesianEstimatorVAS) (he : init v n ts tstd lstd rf = Except.ok e)
    (h1 : 0 < tstd) (h2 : 0 < lstd) (h3 : 0 < rf) (resps : List (String × ℤ)) :
    (runTrials e resps).prior.sum = 1 ∧
    ∀ p ∈ (runTrials e resps).posteriors, p.sum = 1 := by
  have hWF := WF_runTrials resps e (init_WF v n ts tstd lstd rf e he h1 h2 h3)
  exact ⟨hWF.2.2.2.1, hWF.2.2.2.2.2.2⟩

/-- Witness for C8: the concrete scenario construction followed by one
painful trial. -/
theorem claim_C8_normalization_invariant_witness :
    ((0 : ℝ) < 3 ∧ (0 : ℝ) < 1 ∧ (0 : ℝ) < 0.9) ∧
    ((runTrials e0 [("y", 0)]).prior.sum = 1 ∧
     ∀ p ∈ (runTrials e0 [("y", 0)]).posteriors, p.sum = 1) :=
  ⟨⟨by norm_num, by norm_num, by norm_num⟩,
   claim_C8_normalization_invariant 50 3 40 3 1 0.9 e0 init_scenario
     (by norm_num) (by norm_num) (by norm_num) [("y", 0)]⟩

/-! ## Claim C9 -/

/-- Claim C9 (confirmed).  The post-state of conduct_trial is completely
independent of the trial-index argument: for any starting state and
response, any two indices produce identical states (in particular identical
prior, likelihood_std, current_temp, temps history and diagnostic lists);
the index only feeds log messages, including the last-trial branch, which
merely logs and performs no state change. -/
theorem claim_C9_index_independent (e : BayesianEstimatorVAS) (r : String) (i j : ℤ) :
    conduct_trial e r i = conduct_trial e r j := rfl

/-! ## Claim C10 -/

/-- Claim C10 (confirmed).  validate_steps returns false on a freshly
constructed estimator (the history holds only the seed temperature, so the
difference sequence is empty and vacuously all non-negative), and more
generally on any state whose steps are all zero, since all differences are
then trivially non-negative. -/
theorem claim_C10_validate_steps_degenerate :
    (∀ (v n : ℤ) (ts tstd lstd rf : ℝ) (e : BayesianEstimatorVAS),
      init v n ts tstd lstd rf = Except.ok e → validate_steps e = false) ∧
    ∀ e : BayesianEstimatorVAS, (∀ x ∈ steps e, x = 0) → validate_steps e = false := by
  constructor
  · intro v n ts tstd lstd rf e he
    apply validate_steps_false_of_nonneg
    intro x hx
    have htemps : e.temps = [ts] := by
      unfold init at he
      cases hw : rangeWidth? tstd with
      | none =>
        rw [hw] at he
        exact absurd he (by simp)
      | some w =>
        rw [hw] at he
        injection he with he2
        subst he2
        rfl
    unfold steps npDiff at hx
    rw [htemps] at hx
    simp at hx
  · intro e h
    apply validate_steps_false_of_nonneg
    intro x hx
    rw [h x hx]

/-- Witness for C10: the freshly constructed scenario estimator, and the
degenerate state whose two recorded temperatures are equal. -/
theorem claim_C10_validate_steps_degenerate_witness :
    validate_steps e0 = false ∧ validate_steps eDegenerate = false := by
  refine ⟨claim_C10_validate_steps_degenerate.1 50 3 40 3 1 0.9 e0 init_scenario, ?_⟩
  apply claim_C10_validate_steps_degenerate.2
  intro x hx
  unfold steps npDiff at hx
  rw [show eDegenerate.temps = [40, 40] from rfl] at hx
  simp at hx
  linarith [hx]

end
